import Mathlib

/-!
Shallow embedding of the UTS46 (IDNA) processor in `source/common/uts46.cpp`
and of the collation tailoring-set code in `source/i18n/collationsets.cpp`.

Strings are sequences of UTF-16 code units, modelled as `List Nat` with each
unit below `0x10000`.  External collaborators declared out of scope by the
specification (the two normalizers, the Punycode codec and the Unicode
character-property database) are fields of a `Collab` structure; the embedded
functions are parametric in them, exactly as the C++ code is parametric in
those libraries.  Loops are written with an explicit fuel argument that is
initialized by the caller with a bound that makes exhaustion unreachable, so
all definitions are structurally recursive and computable.
-/

namespace ICU

/-- UTF-16 strings: lists of 16-bit code units. -/
abbrev Str := List Nat

/-- Lead surrogate test, `U16_IS_LEAD`. -/
def isLead (c : Nat) : Bool := 0xd800 ≤ c ∧ c < 0xdc00

/-- Trail surrogate test, `U16_IS_TRAIL`. -/
def isTrail (c : Nat) : Bool := 0xdc00 ≤ c ∧ c < 0xe000

/-- Combine a surrogate pair into a supplementary code point,
`U16_GET_SUPPLEMENTARY`. -/
def u16Supplementary (lead trail : Nat) : Nat :=
  0x10000 + (lead - 0xd800) * 0x400 + (trail - 0xdc00)

/-- Read buffer unit `i`; out-of-range reads yield 0 (the `_UNSAFE` macros
assume in-range indices and well-paired surrogates). -/
def u16Get (s : Str) (i : Nat) : Nat := s.getD i 0

/-- `U16_NEXT_UNSAFE(s, i, c)`: returns the decoded code point and the
advanced index. -/
def u16NextUnsafe (s : Str) (i : Nat) : Nat × Nat :=
  let c := u16Get s i
  if isLead c then (u16Supplementary c (u16Get s (i + 1)), i + 2)
  else (c, i + 1)

/-- `U16_PREV_UNSAFE(s, i, c)`: returns the decoded code point and the
decremented index. -/
def u16PrevUnsafe (s : Str) (i : Nat) : Nat × Nat :=
  let c := u16Get s (i - 1)
  if isTrail c then (u16Supplementary (u16Get s (i - 2)) c, i - 2)
  else (c, i - 1)

/-- Append a code point as UTF-16 code units (`UnicodeString::append(UChar32)`). -/
def cpToUnits (c : Nat) : Str :=
  if c ≤ 0xffff then [c]
  else [0xd7c0 + c / 0x400, 0xdc00 + c % 0x400]

/-- The slice of `len` code units starting at `start`. -/
def slice (s : Str) (start len : Nat) : Str := (s.drop start).take len

/-- `UnicodeString::replace(start, len, r)`: indices pin to the string bounds. -/
def replaceSlice (s : Str) (start len : Nat) (r : Str) : Str :=
  s.take start ++ r ++ s.drop (start + len)

/-- `UnicodeString::insert(i, c)` for a single code unit. -/
def insertAt (s : Str) (i : Nat) (c : Nat) : Str :=
  s.take i ++ [c] ++ s.drop i

/-- `UnicodeString::remove(i, 1)`. -/
def removeAt (s : Str) (i : Nat) : Str :=
  s.take i ++ s.drop (i + 1)

/-- The `asciiData[128]` table from uts46.cpp, written as a case split:
`-1` disallowed, `0` valid, `1` mapped to lowercase.  Hyphen and full stop
are valid, digits and lowercase letters are valid, uppercase letters are
mapped, the rest is disallowed. -/
def asciiData (c : Nat) : Int :=
  if c = 0x2d ∨ c = 0x2e then 0
  else if 0x30 ≤ c ∧ c ≤ 0x39 then 0
  else if 0x41 ≤ c ∧ c ≤ 0x5a then 1
  else if 0x61 ≤ c ∧ c ≤ 0x7a then 0
  else -1

/-- Modelled from the spec: the error taxonomy of §6.2 (`UIDNA_ERROR_*` bit
flags from uidna.h, which is not part of the sources).  Only the distinctness
of the bits and the OR-accumulation semantics matter; the set of bits present
is modelled as a `Finset` of this type. -/
inductive ErrBit
  | emptyLabel
  | labelTooLong
  | domainNameTooLong
  | leadingHyphen
  | trailingHyphen
  | hyphen34
  | leadingCombiningMark
  | disallowed
  | punycode
  | labelHasDot
  | invalidAceLabel
  | bidi
  | contextJ
deriving DecidableEq, Repr

/-- `IDNAInfo`: accumulated validation errors and the deviation-character
flag.  `errors` models the `uint32_t` bit set as a finite set of bits. -/
structure IDNAInfo where
  errors : Finset ErrBit
  hasDevChars : Bool
deriving DecidableEq

/-- `IDNAInfo::reset()`. -/
def IDNAInfo.reset : IDNAInfo := ⟨∅, false⟩

/-- `info.errors |= e`. -/
def IDNAInfo.addErr (info : IDNAInfo) (e : ErrBit) : IDNAInfo :=
  { info with errors := insert e info.errors }

/-- `info.hasDevChars = TRUE`. -/
def IDNAInfo.setDev (info : IDNAInfo) : IDNAInfo :=
  { info with hasDevChars := true }

/-- `info.hasErrors()`. -/
def IDNAInfo.hasErrors (info : IDNAInfo) : Bool := info.errors ≠ ∅

/-- The IDNA option bits, § "IDNA options" of the spec (`UIDNA_*` flags).
Each field models one tested bit of the `uint32_t options` word. -/
structure Options where
  useSTD3Rules : Bool
  checkBidi : Bool
  checkContextJ : Bool
  nontransitionalToASCII : Bool
  nontransitionalToUnicode : Bool
deriving DecidableEq, Repr

/-- All options off. -/
def Options.none : Options := ⟨false, false, false, false, false⟩

/-- `UCharDirection` (bidi classes), as in uchar.h.  Only the enum numbering
(for `U_MASK`) matters; the numbering below is ICU's. -/
inductive UCharDirection
  | leftToRight          -- L  = 0
  | rightToLeft          -- R  = 1
  | europeanNumber       -- EN = 2
  | europeanNumberSeparator  -- ES = 3
  | europeanNumberTerminator -- ET = 4
  | arabicNumber         -- AN = 5
  | commonNumberSeparator    -- CS = 6
  | blockSeparator       -- B  = 7
  | segmentSeparator     -- S  = 8
  | whiteSpaceNeutral    -- WS = 9
  | otherNeutral         -- ON = 10
  | leftToRightEmbedding -- LRE = 11
  | leftToRightOverride  -- LRO = 12
  | rightToLeftArabic    -- AL = 13
  | rightToLeftEmbedding -- RLE = 14
  | rightToLeftOverride  -- RLO = 15
  | popDirectionalFormat -- PDF = 16
  | dirNonSpacingMark    -- NSM = 17
  | boundaryNeutral      -- BN = 18
deriving DecidableEq, Repr

/-- The ICU enum value of a bidi class. -/
def dirIndex : UCharDirection → Nat
  | .leftToRight => 0
  | .rightToLeft => 1
  | .europeanNumber => 2
  | .europeanNumberSeparator => 3
  | .europeanNumberTerminator => 4
  | .arabicNumber => 5
  | .commonNumberSeparator => 6
  | .blockSeparator => 7
  | .segmentSeparator => 8
  | .whiteSpaceNeutral => 9
  | .otherNeutral => 10
  | .leftToRightEmbedding => 11
  | .leftToRightOverride => 12
  | .rightToLeftArabic => 13
  | .rightToLeftEmbedding => 14
  | .rightToLeftOverride => 15
  | .popDirectionalFormat => 16
  | .dirNonSpacingMark => 17
  | .boundaryNeutral => 18

/-- `U_MASK(dir)`. -/
def uMask (d : UCharDirection) : Nat := 2 ^ dirIndex d

/-- Bitwise complement within a `uint32_t`, `~mask`.  All direction masks
fit in 32 bits, so this matches the C complement on every tested bit. -/
def compl32 (a : Nat) : Nat := 0xffffffff ^^^ a

/-- `L_MASK`. -/
def lMask : Nat := uMask .leftToRight

/-- `R_AL_MASK`. -/
def rAlMask : Nat := uMask .rightToLeft ||| uMask .rightToLeftArabic

/-- `L_R_AL_MASK`. -/
def lRAlMask : Nat := lMask ||| rAlMask

/-- `EN_AN_MASK`. -/
def enAnMask : Nat := uMask .europeanNumber ||| uMask .arabicNumber

/-- `R_AL_EN_AN_MASK`. -/
def rAlEnAnMask : Nat := rAlMask ||| enAnMask

/-- `L_EN_MASK`. -/
def lEnMask : Nat := lMask ||| uMask .europeanNumber

/-- `ES_CS_ET_ON_BN_NSM_MASK`. -/
def esCsEtOnBnNsmMask : Nat :=
  uMask .europeanNumberSeparator ||| uMask .commonNumberSeparator |||
  uMask .europeanNumberTerminator ||| uMask .otherNeutral |||
  uMask .boundaryNeutral ||| uMask .dirNonSpacingMark

/-- `L_EN_ES_CS_ET_ON_BN_NSM_MASK`. -/
def lEnEsCsEtOnBnNsmMask : Nat := lEnMask ||| esCsEtOnBnNsmMask

/-- `R_AL_AN_EN_ES_CS_ET_ON_BN_NSM_MASK`. -/
def rAlAnEnEsCsEtOnBnNsmMask : Nat := rAlMask ||| enAnMask ||| esCsEtOnBnNsmMask

/-- `UJoiningType`, as in uchar.h. -/
inductive JoiningType
  | nonJoining
  | joinCausing
  | dualJoining
  | leftJoining
  | rightJoining
  | transparent
deriving DecidableEq, Repr

/-- The external collaborators consumed by UTS46 (spec §1 "out of scope"):
the uts46 and NFC normalizers, the Punycode codec and the character-property
database.  The embedded code is parametric in them. -/
structure Collab where
  uts46Normalize : Str → Str
  normalizeSecondAndAppend : Str → Str → Str
  nfcNormalize : Str → Str
  punyDecode : Str → Option Str
  punyEncode : Str → Option Str
  gcIsMark : Nat → Bool
  charDirection : Nat → UCharDirection
  combiningClass : Nat → Nat
  joiningType : Nat → JoiningType

/-- The "last non-NSM" walk of `isLabelOkBiDi`: walk backward from the label
end skipping NSM code points; returns the mask of the first non-NSM class
found (or `firstMask` when the start is reached) together with the decremented
label length.  `fuel ≥ labelLength` makes the fuel case unreachable. -/
def bidiLastLoop (col : Collab) (label : Str) (firstMask : Nat) :
    Nat → Nat → Nat → Nat × Nat
  | 0, _, labelLength => (firstMask, labelLength)
  | fuel + 1, i, labelLength =>
    if labelLength ≤ i then (firstMask, labelLength)
    else
      let p := u16PrevUnsafe label labelLength
      if col.charDirection p.1 = .dirNonSpacingMark then
        bidiLastLoop col label firstMask fuel i p.2
      else (uMask (col.charDirection p.1), p.2)

/-- The forward walk of `isLabelOkBiDi` that ORs the masks of the
intervening code points. -/
def bidiMiddleLoop (col : Collab) (label : Str) :
    Nat → Nat → Nat → Nat → Nat
  | 0, _, _, mask => mask
  | fuel + 1, i, labelLength, mask =>
    if i < labelLength then
      let p := u16NextUnsafe label i
      bidiMiddleLoop col label fuel p.2 labelLength
        (mask ||| uMask (col.charDirection p.1))
    else mask

/-- `UTS46::isLabelOkBiDi(label, labelLength)`, the IDNA2008 BiDi rule
check, embedded over the label slice. -/
def isLabelOkBiDi (col : Collab) (label : Str) : Bool :=
  let labelLength := label.length
  let p0 := u16NextUnsafe label 0
  let firstMask := uMask (col.charDirection p0.1)
  if firstMask &&& compl32 lRAlMask ≠ 0 then false
  else
    let lastP := bidiLastLoop col label firstMask labelLength p0.2 labelLength
    if (if firstMask &&& lMask ≠ 0 then lastP.1 &&& compl32 lEnMask ≠ 0
        else lastP.1 &&& compl32 rAlEnAnMask ≠ 0) then false
    else
      let mask := bidiMiddleLoop col label lastP.2 p0.2 lastP.2 0
      if firstMask &&& lMask ≠ 0 then
        decide (mask &&& compl32 lEnEsCsEtOnBnNsmMask = 0)
      else if mask &&& compl32 rAlAnEnEsCsEtOnBnNsmMask ≠ 0 then false
      else if mask &&& enAnMask = enAnMask then false
      else true

/-- Outcome of the ZWNJ postcontext walk in `isLabelOkContextJ`: the label
check fails, or the walk succeeds with the advanced value of `i`, or the code
reads a code unit past the end of the label (undefined behavior in C). -/
inductive CtxjPostRes
  | failRes
  | cont (i : Nat)
  | undef
deriving DecidableEq, Repr

/-- ZWNJ precontext walk `(Joining_Type:{L,D})(Joining_Type:T)*`: walking
left from the already-decoded code point `c` at backward index `j`, skip
Transparent; the first non-Transparent must be Left- or Dual-Joining.
Returns `some true` when fulfilled, `some false` for the `return FALSE`
paths, `none` on fuel exhaustion (unreachable for `fuel > j`). -/
def ctxjPre (col : Collab) (label : Str) :
    Nat → Nat → Nat → Option Bool
  | 0, _, _ => Option.none
  | fuel + 1, j, c =>
    match col.joiningType c with
    | .transparent =>
      if j = 0 then some false
      else
        let p := u16PrevUnsafe label j
        ctxjPre col label fuel p.2 p.1
    | .leftJoining => some true
    | .dualJoining => some true
    | _ => some false

/-- ZWNJ postcontext walk, embedded exactly as written in the source: the
loop is controlled by the stale index `j` (set once to `i+1` and never
advanced) while `U16_NEXT_UNSAFE` advances `i` itself, so the first code
point examined is the U+200C under test.  A read past the label end is
reported as `CtxjPostRes.undef`. -/
def ctxjPost (col : Collab) (label : Str) (labelLength j : Nat) :
    Nat → Nat → CtxjPostRes
  | 0, _ => .undef
  | fuel + 1, i =>
    if j = labelLength then .failRes
    else if labelLength ≤ i then .undef
    else
      let p := u16NextUnsafe label i
      match col.joiningType p.1 with
      | .transparent => ctxjPost col label labelLength j fuel p.2
      | .rightJoining => .cont p.2
      | .dualJoining => .cont p.2
      | _ => .failRes

/-- The outer loop of `UTS46::isLabelOkContextJ` over the label indices.
`some b` is the returned `UBool`; `none` records that the code would read
past the end of the label (undefined behavior). -/
def ctxjLoop (col : Collab) (label : Str) (labelLength : Nat) :
    Nat → Nat → Option Bool
  | 0, _ => Option.none
  | fuel + 1, i =>
    if labelLength ≤ i then some true
    else if u16Get label i = 0x200c then
      if i = 0 then some false
      else
        let p := u16PrevUnsafe label i
        if col.combiningClass p.1 = 9 then ctxjLoop col label labelLength fuel (i + 1)
        else
          match ctxjPre col label (p.2 + 1) p.2 p.1 with
          | Option.none => Option.none
          | some false => some false
          | some true =>
            match ctxjPost col label labelLength (i + 1) (labelLength + 1 - i) i with
            | .undef => Option.none
            | .failRes => some false
            | .cont i2 => ctxjLoop col label labelLength fuel (i2 + 1)
    else if u16Get label i = 0x200d then
      if i = 0 then some false
      else
        let p := u16PrevUnsafe label i
        if col.combiningClass p.1 ≠ 9 then some false
        else ctxjLoop col label labelLength fuel (i + 1)
    else ctxjLoop col label labelLength fuel (i + 1)

/-- `UTS46::isLabelOkContextJ(label, labelLength)`.  `some b` is the value
the C function returns; `none` means the function would read out of bounds
(see the postcontext walk). -/
def isLabelOkContextJ (col : Collab) (label : Str) : Option Bool :=
  ctxjLoop col label label.length (label.length + 1) 0

/-- Result of `UTS46::processLabel`: the updated destination string, the
updated `IDNAInfo`, whether a fatal `UErrorCode` was raised, and the new
length of the label inside the destination (the C function returns the
delta `newLabelLength - destLabelLength`). -/
structure LabelResult where
  dest : Str
  info : IDNAInfo
  fatal : Bool
  newLabelLength : Nat
deriving DecidableEq

/-- The scan over the code units after "xn--" in the Punycode-decode-failure
branch of `processLabel`: returns the units with their in-place `U+FFFD`
substitutions applied, the `onlyLDH` flag, and the error bits set during the
loop.  (In the source this is a do-while over `label+4 .. label+labelLength`;
the embedding folds over that slice, which coincides with the source whenever
the slice is non-empty.) -/
def punyFailScan (disallowNonLDHDot : Bool) : Str → Str × Bool × Finset ErrBit
  | [] => ([], true, ∅)
  | c :: rest =>
    let r := punyFailScan disallowNonLDHDot rest
    if c ≤ 0x7f then
      if c = 0x2e then (0xfffd :: r.1, false, insert .labelHasDot r.2.2)
      else if asciiData c < 0 then
        ((if disallowNonLDHDot then 0xfffd else c) :: r.1, false, r.2.2)
      else (c :: r.1, r.2.1, r.2.2)
    else (c :: r.1, false, r.2.2)

/-- State of the per-code-unit scan of `processLabel` (step with `UChar *s`):
the current labelString buffer, the current label length, the running
`oredChars`, the info, and `didMapDevChars`. -/
structure ScanState where
  buf : Str
  labelLength : Nat
  ored : Nat
  info : IDNAInfo
  didMap : Bool
deriving DecidableEq

/-- The per-code-unit scan of `processLabel`: dots and STD3-disallowed ASCII
are replaced with `U+FFFD`, deviation characters are mapped (sharp s to "ss"
in place with one inserted unit, final sigma rewritten, ZWNJ/ZWJ removed)
when `doMap`, and `U+FFFD` marks `DISALLOWED`.  `idx` is the absolute index
of `s` in the labelString buffer; the loop ends when `idx` reaches
`labelStart + labelLength`.  `fuel ≥ labelLength` at entry makes fuel
exhaustion unreachable (each step decreases `labelStart + labelLength - idx`). -/
def devScan (std3 wasPunycode doMap : Bool) (labelStart : Nat) :
    Nat → Nat → ScanState → ScanState
  | 0, _, st => st
  | fuel + 1, idx, st =>
    if labelStart + st.labelLength ≤ idx then st
    else
      let c := u16Get st.buf idx
      if c ≤ 0x7f then
        if c = 0x2e then
          devScan std3 wasPunycode doMap labelStart fuel (idx + 1)
            { st with buf := st.buf.set idx 0xfffd,
                      info := st.info.addErr .labelHasDot }
        else if std3 ∧ asciiData c < 0 then
          let info := st.info.addErr .disallowed
          let info := if wasPunycode then info.addErr .invalidAceLabel else info
          devScan std3 wasPunycode doMap labelStart fuel (idx + 1)
            { st with buf := st.buf.set idx 0xfffd, info := info }
        else devScan std3 wasPunycode doMap labelStart fuel (idx + 1) st
      else
        let st := { st with ored := st.ored ||| c }
        if c = 0xdf then
          let st := { st with info := st.info.setDev }
          if doMap then
            devScan std3 wasPunycode doMap labelStart fuel (idx + 2)
              { st with buf := insertAt (st.buf.set idx 0x73) (idx + 1) 0x73,
                        labelLength := st.labelLength + 1, didMap := true }
          else devScan std3 wasPunycode doMap labelStart fuel (idx + 1) st
        else if c = 0x3c2 then
          let st := { st with info := st.info.setDev }
          if doMap then
            devScan std3 wasPunycode doMap labelStart fuel (idx + 1)
              { st with buf := st.buf.set idx 0x3c3, didMap := true }
          else devScan std3 wasPunycode doMap labelStart fuel (idx + 1) st
        else if c = 0x200c ∨ c = 0x200d then
          let st := { st with info := st.info.setDev }
          if doMap then
            devScan std3 wasPunycode doMap labelStart fuel idx
              { st with buf := removeAt st.buf idx,
                        labelLength := st.labelLength - 1, didMap := true }
          else devScan std3 wasPunycode doMap labelStart fuel (idx + 1) st
        else if c = 0xfffd then
          devScan std3 wasPunycode doMap labelStart fuel (idx + 1)
            { st with info := st.info.addErr .disallowed }
        else devScan std3 wasPunycode doMap labelStart fuel (idx + 1) st

/-- The static `replaceLabel` helper: when the label string is `dest` itself
the label was already modified in place and nothing is copied; otherwise the
destination slice `[destLabelStart, destLabelStart + destLabelLength)` is
replaced by the label string.  Returns the new destination and the new label
length (the C function returns `labelLength - destLabelLength`). -/
def replaceLabel (dest : Str) (destLabelStart destLabelLength : Nat)
    (labelIsDest : Bool) (label : Str) (labelLength : Nat) : Str × Nat :=
  if labelIsDest then (dest, labelLength)
  else (replaceSlice dest destLabelStart destLabelLength label, labelLength)

/-- The label state threaded through the body of `processLabel` after the
Punycode-detection phase: the destination, the current labelString contents
(`buf`, equal to `dest` when `lsIsDest`), and the label slice inside `buf`. -/
structure LabelSt where
  dest : Str
  buf : Str
  lsIsDest : Bool
  labelStart : Nat
  labelLength : Nat
  info : IDNAInfo
deriving DecidableEq

/-- The hyphen-placement checks of `processLabel`: positions 3 and 4 both
`'-'` raises `HYPHEN_3_4`, a leading `'-'` raises `LEADING_HYPHEN`, a
trailing `'-'` raises `TRAILING_HYPHEN`. -/
def hyphenChecks (buf : Str) (ls ll : Nat) (info : IDNAInfo) : IDNAInfo :=
  let info := if 4 ≤ ll ∧ u16Get buf (ls + 2) = 0x2d ∧ u16Get buf (ls + 3) = 0x2d
              then info.addErr .hyphen34 else info
  let info := if u16Get buf ls = 0x2d then info.addErr .leadingHyphen else info
  if u16Get buf (ls + ll - 1) = 0x2d then info.addErr .trailingHyphen else info

/-- The leading-combining-mark check of `processLabel`: when the label's
first code point has general category Mark it is replaced by one `U+FFFD`.
Returns the updated labelString buffer, label length and info. -/
def markCheck (col : Collab) (buf : Str) (ls ll : Nat) (info : IDNAInfo) :
    Str × Nat × IDNAInfo :=
  let pc := u16NextUnsafe (slice buf ls ll) 0
  if col.gcIsMark pc.1 then
    (replaceSlice buf ls pc.2 [0xfffd], ll + 1 - pc.2, info.addErr .leadingCombiningMark)
  else (buf, ll, info)

/-- The BiDi and CONTEXTJ checks of `processLabel`, gated by the `oredChars`
filters (`oredChars >= 0x590` and `(oredChars & 0x200C) == 0x200C`).  An
out-of-bounds read by `isLabelOkContextJ` (undefined behavior in C, `none`
here) is conservatively treated as a failed check; the closed theorems never
exercise that case. -/
def bidiCtxjChecks (col : Collab) (opts : Options) (ored : Nat) (lbl : Str)
    (info : IDNAInfo) : IDNAInfo :=
  let info := if opts.checkBidi ∧ 0x590 ≤ ored ∧ ¬ isLabelOkBiDi col lbl
              then info.addErr .bidi else info
  if opts.checkContextJ ∧ (ored &&& 0x200c) = 0x200c ∧
     isLabelOkContextJ col lbl ≠ some true
  then info.addErr .contextJ else info

/-- The body of `UTS46::processLabel` after Punycode detection: validity
checks (empty label, hyphens, leading combining mark), the per-code-unit
scan, the optional NFC re-normalization when deviation characters were
mapped, the BiDi and CONTEXTJ checks, and the optional re-encoding to
Punycode, ending in `replaceLabel`. -/
def processLabelTail (col : Collab) (opts : Options) (toASCII wasPunycode : Bool)
    (destLabelStart destLabelLength : Nat) (st : LabelSt) : LabelResult :=
  if st.labelLength = 0 then
    let info := if toASCII then st.info.addErr .emptyLabel else st.info
    let r := replaceLabel st.dest destLabelStart destLabelLength st.lsIsDest st.buf st.labelLength
    ⟨r.1, info, false, r.2⟩
  else
    let m := markCheck col st.buf st.labelStart st.labelLength
      (hyphenChecks st.buf st.labelStart st.labelLength st.info)
    let doMap := !wasPunycode &&
      (if toASCII then !opts.nontransitionalToASCII else !opts.nontransitionalToUnicode)
    let sst := devScan opts.useSTD3Rules wasPunycode doMap st.labelStart
      m.2.1 st.labelStart ⟨m.1, m.2.1, 0, m.2.2, false⟩
    let dest := if st.lsIsDest then sst.buf else st.dest
    let normalized := col.nfcNormalize (slice sst.buf st.labelStart sst.labelLength)
    let buf := if sst.didMap then normalized else sst.buf
    let lsIsDest := if sst.didMap then false else st.lsIsDest
    let lsr := if sst.didMap then 0 else st.labelStart
    let ll := if sst.didMap then normalized.length else sst.labelLength
    let lbl := slice buf lsr ll
    let info := bidiCtxjChecks col opts sst.ored lbl sst.info
    if toASCII ∧ (if wasPunycode then (sst.didMap ∨ info.errors ≠ ∅) else 0x80 ≤ sst.ored) then
      match col.punyEncode lbl with
      | some p =>
        let punystr := 0x78 :: 0x6e :: 0x2d :: 0x2d :: p
        let info := if 63 < punystr.length then info.addErr .labelTooLong else info
        let r := replaceLabel dest destLabelStart destLabelLength false punystr punystr.length
        ⟨r.1, info, false, r.2⟩
      | Option.none =>
        let r := replaceLabel dest destLabelStart destLabelLength lsIsDest buf ll
        ⟨r.1, info, true, r.2⟩
    else
      let r := replaceLabel dest destLabelStart destLabelLength lsIsDest buf ll
      ⟨r.1, info, false, r.2⟩

/-- `UTS46::processLabel(dest, labelStart, labelLength, toASCII, info)`.
If the label starts with "xn--" its remainder is Punycode-decoded; on decode
failure the `PUNYCODE` error is set and the remainder scanned for LDH
characters (one `U+FFFD` is appended after an all-LDH label); on success the
decoded form is normalized and compared for the NFC-stability check.  The
rest of the label processing is `processLabelTail`. -/
def processLabel (col : Collab) (opts : Options) (dest : Str)
    (labelStart labelLength : Nat) (toASCII : Bool) (info : IDNAInfo) : LabelResult :=
  if 4 ≤ labelLength ∧ u16Get dest labelStart = 0x78 ∧ u16Get dest (labelStart + 1) = 0x6e ∧
     u16Get dest (labelStart + 2) = 0x2d ∧ u16Get dest (labelStart + 3) = 0x2d then
    match col.punyDecode (slice dest (labelStart + 4) (labelLength - 4)) with
    | Option.none =>
      let info := info.addErr .punycode
      let scan := punyFailScan opts.useSTD3Rules (slice dest (labelStart + 4) (labelLength - 4))
      let info := { info with errors := info.errors ∪ scan.2.2 }
      if scan.2.1 then
        ⟨insertAt dest (labelStart + labelLength) 0xfffd, info, false, labelLength + 1⟩
      else
        ⟨replaceSlice dest (labelStart + 4) (labelLength - 4) scan.1, info, false, labelLength⟩
    | some unicode =>
      let fromPunycode := col.uts46Normalize unicode
      let info := if unicode ≠ fromPunycode then info.addErr .invalidAceLabel else info
      processLabelTail col opts toASCII true labelStart labelLength
        ⟨dest, fromPunycode, false, 0, fromPunycode.length, info⟩
  else
    processLabelTail col opts toASCII false labelStart labelLength
      ⟨dest, dest, true, labelStart, labelLength, info⟩

/-- Result of `UTS46::process` and `processUnicode`. -/
structure ProcResult where
  dest : Str
  info : IDNAInfo
  fatal : Bool
deriving DecidableEq

/-- The label-segmentation loop of `processUnicode`: split the destination at
U+002E and run `processLabel` on each label, re-offsetting by the returned
delta.  `destLength` is the local variable of the source (tracked separately
from the real buffer length, exactly as in the C code); the updates
`labelStart + newLabelLength + 1` and
`labelStart + newLabelLength + (destLength - labelLimit)` are the C
assignments `labelStart = labelLimit += delta + 1` and `destLength += delta`
rewritten without subtraction.  `destLength - labelLimit + 1` fuel suffices:
the difference `destLength - labelLimit` drops by one per step. -/
def labelLoop (col : Collab) (opts : Options) (toASCII : Bool) :
    Nat → Str → Nat → Nat → Nat → IDNAInfo → ProcResult
  | 0, dest, _, _, _, info => ⟨dest, info, false⟩
  | fuel + 1, dest, labelStart, labelLimit, destLength, info =>
    if labelLimit < destLength then
      if u16Get dest labelLimit = 0x2e then
        let r := processLabel col opts dest labelStart (labelLimit - labelStart) toASCII info
        if r.fatal then ⟨r.dest, r.info, true⟩
        else
          labelLoop col opts toASCII fuel r.dest (labelStart + r.newLabelLength + 1)
            (labelStart + r.newLabelLength + 1)
            (labelStart + r.newLabelLength + (destLength - labelLimit)) r.info
      else labelLoop col opts toASCII fuel dest labelStart (labelLimit + 1) destLength info
    else
      if labelStart = 0 ∨ labelStart < labelLimit then
        let r := processLabel col opts dest labelStart (labelLimit - labelStart) toASCII info
        ⟨r.dest, r.info, r.fatal⟩
      else ⟨dest, info, false⟩

/-- `UTS46::processUnicode`: normalize the not-yet-processed tail (or the
whole input when `mappingStart == 0`), then process the single label or run
the label-segmentation loop. -/
def processUnicode (col : Collab) (opts : Options) (src : Str)
    (labelStart mappingStart : Nat) (isLabel toASCII : Bool)
    (dest : Str) (info : IDNAInfo) : ProcResult :=
  let dest := if mappingStart = 0 then col.uts46Normalize src
              else col.normalizeSecondAndAppend dest (src.drop mappingStart)
  if isLabel then
    let r := processLabel col opts dest 0 dest.length toASCII info
    ⟨r.dest, r.info, r.fatal⟩
  else
    labelLoop col opts toASCII (dest.length + 1 - labelStart) dest labelStart
      labelStart dest.length info

/-- Outcome of the ASCII fastpath of `UTS46::process`: either the whole input
was consumed (`complete`), or the loop broke to the Unicode path with the
current label start, the break position (`mappingStart`) and the code units
already emitted. -/
inductive FastPathRes
  | complete (dest : Str) (info : IDNAInfo)
  | unicodePath (labelStart mappingStart : Nat) (dest : Str) (info : IDNAInfo)
deriving DecidableEq

/-- The ASCII fastpath loop of `UTS46::process`.  `acc` is the destination
prefix written so far (always `i` units: on a break the buffer is released at
length `i`, dropping any unit written in the breaking iteration).
`fuel ≥ src.length + 1 - i` makes fuel exhaustion unreachable. -/
def asciiLoop (opts : Options) (src : Str) (isLabel toASCII : Bool) :
    Nat → Nat → Nat → Str → IDNAInfo → FastPathRes
  | 0, _, _, acc, info => .complete acc info
  | fuel + 1, i, labelStart, acc, info =>
    if i = src.length then
      let info := if toASCII ∧ 63 < i - labelStart then info.addErr .labelTooLong else info
      .complete acc info
    else
      let c := u16Get src i
      if 0x7f < c then .unicodePath labelStart i acc info
      else if asciiData c > 0 then
        asciiLoop opts src isLabel toASCII fuel (i + 1) labelStart (acc ++ [c + 0x20]) info
      else if asciiData c < 0 ∧ opts.useSTD3Rules then
        .unicodePath labelStart i acc info
      else if c = 0x2d then
        if i = labelStart + 3 ∧ u16Get src (i - 1) = 0x2d then
          .unicodePath labelStart i acc info
        else
          let info := if i = labelStart then info.addErr .leadingHyphen else info
          let info := if i + 1 = src.length ∨ u16Get src (i + 1) = 0x2e
                      then info.addErr .trailingHyphen else info
          asciiLoop opts src isLabel toASCII fuel (i + 1) labelStart (acc ++ [c]) info
      else if c = 0x2e then
        if isLabel then .unicodePath labelStart i acc info
        else
          let info := if i = labelStart ∧ i < src.length - 1 then info.addErr .emptyLabel
                      else if toASCII ∧ 63 < i - labelStart then info.addErr .labelTooLong
                      else info
          asciiLoop opts src isLabel toASCII fuel (i + 1) (i + 1) (acc ++ [c]) info
      else asciiLoop opts src isLabel toASCII fuel (i + 1) labelStart (acc ++ [c]) info

/-- `UTS46::process(src, isLabel, toASCII, dest, info)`: reset the info,
handle the empty input, run the ASCII fastpath and, when it breaks, the
Unicode path.  (The entry guards on a failed `UErrorCode`, aliased
destination or null buffer are outside the embedding: the call is modelled
with a fresh info and a healthy, non-aliased destination.) -/
def process (col : Collab) (opts : Options) (src : Str)
    (isLabel toASCII : Bool) : ProcResult :=
  let info := IDNAInfo.reset
  if src.length = 0 then ⟨[], info.addErr .emptyLabel, false⟩
  else
    match asciiLoop opts src isLabel toASCII (src.length + 1) 0 0 [] info with
    | .complete dest info => ⟨dest, info, false⟩
    | .unicodePath labelStart mappingStart dest info =>
      processUnicode col opts src labelStart mappingStart isLabel toASCII dest info

/-- A `UnicodeString` result handed back to the caller: `bogus` models
`setToBogus()` (which empties the string and marks it invalid). -/
structure IDNAResult where
  value : Str
  bogus : Bool
deriving DecidableEq

/-- `dest.setToBogus()`. -/
def bogusResult : IDNAResult := ⟨[], true⟩

/-- Result of the public entry points. -/
structure APIResult where
  result : IDNAResult
  info : IDNAInfo
  fatal : Bool
deriving DecidableEq

/-- The shared tail of the `toASCII` entry points: `if(info.hasErrors())
dest.setToBogus();` and the return of the destination. -/
def finishToASCII (p : ProcResult) (info : IDNAInfo) : APIResult :=
  if info.hasErrors then ⟨bogusResult, info, p.fatal⟩
  else ⟨⟨p.dest, false⟩, info, p.fatal⟩

/-- `UTS46::labelToASCII`: process in label mode, then mark the destination
bogus when any error bit is set. -/
def labelToASCII (col : Collab) (opts : Options) (label : Str) : APIResult :=
  let p := process col opts label true true
  finishToASCII p p.info

/-- `UTS46::nameToASCII`: process in name mode, apply the total-length rule
(length at least 254 and not exactly 254 with a dot at index 253 raises
`DOMAIN_NAME_TOO_LONG`), then mark the destination bogus when any error bit
is set. -/
def nameToASCII (col : Collab) (opts : Options) (src : Str) : APIResult :=
  let p := process col opts src false true
  let info := if 254 ≤ p.dest.length ∧ (254 < p.dest.length ∨ u16Get p.dest 253 ≠ 0x2e)
              then p.info.addErr .domainNameTooLong else p.info
  finishToASCII p info

/-! Collation tailoring sets, `source/i18n/collationsets.cpp`.  The CE32
helpers of collation.h / collationdata.h are not among the sources; the
constants and predicates below are modelled from the spec (§3 "CE32
encoding") and the remaining helpers (`getIndirectCE32`, `getFinalCE32`,
`getCE32`, `TailoredSet::compare`) are abstracted as function parameters. -/

/-- Modelled from the spec: `Collation::MIN_SPECIAL_CE32`, the reserved
sentinel value meaning "fall back to the base data" (collation.h is not
among the sources; only the value's role as the least special CE32 is used). -/
def MIN_SPECIAL_CE32 : Nat := 0x80000000

/-- Modelled from the spec: `Collation::isSpecialCE32` — a CE32 is special
iff it is at or above the reserved sentinel (the enumeration in
`ContractionsAndExpansions::handleCE32` treats `ce32 <= MIN_SPECIAL_CE32` as
"not special, or fallback to the base"). -/
def isSpecialCE32 (ce32 : Nat) : Bool := MIN_SPECIAL_CE32 ≤ ce32

/-- The `tailored` UnicodeSet of `TailoredSet`, modelled as the list of
`add` calls performed on it (code points on the left, strings on the right);
"contributes nothing" statements assert the list is unchanged. -/
structure TSState where
  tailored : List (Nat ⊕ Str)
deriving DecidableEq

/-- The do-while loop of `TailoredSet::handleCE32` over `[start..end]`:
`getFinalBase c` stands for `baseData->getFinalCE32(baseData->getCE32(c))`
and `compareF` abstracts the mutually recursive `TailoredSet::compare`
(the claims proved about this loop quantify over both).  `count` is the
number of code points left, `end + 1 - start`. -/
def tsHandleLoop (getFinalBase : Nat → Nat)
    (compareF : TSState → Nat → Nat → Nat → TSState) (ce32 : Nat) :
    Nat → Nat → TSState → TSState
  | 0, _, s => s
  | count + 1, start, s =>
    let baseCE32 := getFinalBase start
    let s := if isSpecialCE32 ce32 ∨ isSpecialCE32 baseCE32 then
               compareF s start ce32 baseCE32
             else if ce32 ≠ baseCE32 then
               { s with tailored := s.tailored ++ [Sum.inl start] }
             else s
    tsHandleLoop getFinalBase compareF ce32 count (start + 1) s

/-- `TailoredSet::handleCE32(start, end, ce32)`: chase an indirect special
CE32 once via `getIndirectCE32`; if that resolves to `MIN_SPECIAL_CE32` the
range falls back to the base and nothing is added; otherwise every code
point of the range is compared against the base. -/
def tsHandleCE32 (getIndirect getFinalBase : Nat → Nat)
    (compareF : TSState → Nat → Nat → Nat → TSState)
    (start e ce32 : Nat) (s : TSState) : TSState :=
  if isSpecialCE32 ce32 then
    let ce32 := getIndirect ce32
    if ce32 = MIN_SPECIAL_CE32 then s
    else tsHandleLoop getFinalBase compareF ce32 (e + 1 - start) start s
  else tsHandleLoop getFinalBase compareF ce32 (e + 1 - start) start s

/-- `enumTailoredRange`, the `utrie2_enum` callback of
`TailoredSet::forData`: a range whose value is `MIN_SPECIAL_CE32` falls back
to the base and is skipped outright. -/
def enumTailoredRange (getIndirect getFinalBase : Nat → Nat)
    (compareF : TSState → Nat → Nat → Nat → TSState)
    (start e ce32 : Nat) (s : TSState) : TSState :=
  if ce32 = MIN_SPECIAL_CE32 then s
  else tsHandleCE32 getIndirect getFinalBase compareF start e ce32 s

/-- Which UnicodeSet pointer a caller hands to
`ContractionsAndExpansions::addStrings`. -/
inductive WhichSet
  | con
  | exp
deriving DecidableEq

/-- The `ContractionsAndExpansions` state relevant to `addStrings`: the
optional prefix and suffix walk context and the two output sets (`none`
models a null `UnicodeSet *`).  Each set is modelled as the list of `add`
calls performed on it.  (`pfx`/`sfx` stand for the `prefix`/`suffix`
members; those identifiers are reserved in Lean.) -/
structure CnEState where
  pfx : Option Str
  sfx : Option Str
  contractions : Option (List Str)
  expansions : Option (List Str)
deriving DecidableEq

/-- The set pointer selected by a `WhichSet`. -/
def CnEState.getSet (st : CnEState) : WhichSet → Option (List Str)
  | .con => st.contractions
  | .exp => st.expansions

/-- The string built for one code point in the `addStrings` loop:
`prefix + c + suffix` (the source truncates the shared buffer back to the
prefix length between iterations). -/
def addStringsUnit (st : CnEState) (c : Nat) : Str :=
  (st.pfx.getD []) ++ cpToUnits c ++ (st.sfx.getD [])

/-- The do-while loop of `addStrings` over `[start..end]`, appending each
built string to the `expansions` list (see `addStrings`).  The body runs at
least once, as in the source. -/
def addStringsLoop (st : CnEState) (e : Nat) : Nat → Nat → List Str → List Str
  | 0, _, es => es
  | fuel + 1, start, es =>
    let es := es ++ [addStringsUnit st start]
    if start + 1 ≤ e then addStringsLoop st e fuel (start + 1) es else es

/-- `ContractionsAndExpansions::addStrings(start, end, set)`: if the passed
set pointer is null, return; otherwise, for each code point in
`[start..end]`, build `prefix + c + suffix` and add it.  As written in the
source the add is `expansions->add(s)` — the `set` parameter is only tested
for null — so every string lands in `expansions` regardless of which set was
passed; when `expansions` is null this dereferences a null pointer, reported
here as `none`. -/
def addStrings (st : CnEState) (start e : Nat) (set : WhichSet) : Option CnEState :=
  if st.getSet set = Option.none then some st
  else
    match st.expansions with
    | Option.none => Option.none
    | some es =>
      some { st with expansions := some (addStringsLoop st e (e + 2 - start) start es) }

/-! Concrete collaborator instances used by the closed theorems below. -/

/-- Modelled from the spec: a concrete instantiation of the out-of-scope
collaborators (normalizers, Punycode codec, property database), agreeing
with the real ones on every string the closed theorems below evaluate: all
involved strings are fixed points of the uts46 and NFC normalizers, and
"4ca" is the RFC 3492 Punycode encoding of "ä" (U+00E4). -/
def collabC : Collab where
  uts46Normalize := id
  normalizeSecondAndAppend := fun a b => a ++ b
  nfcNormalize := id
  punyDecode := fun s => if s = [0x34, 0x63, 0x61] then some [0xe4] else Option.none
  punyEncode := fun s => if s = [0xe4] then some [0x34, 0x63, 0x61] else Option.none
  gcIsMark := fun _ => false
  charDirection := fun _ => .leftToRight
  combiningClass := fun _ => 0
  joiningType := fun _ => .nonJoining

/-- Modelled from the spec: joining-type assignments for the CONTEXTJ
evaluation — U+0644 (ARABIC LETTER LAM) is Dual-Joining with combining class
0, U+200C (ZWNJ) is Non-Joining, as in ArabicShaping.txt. -/
def collabCtxj : Collab :=
  { collabC with
      joiningType := fun c => if c = 0x644 then .dualJoining else .nonJoining }

/-- Modelled from the spec: bidi classes for the BiDi evaluation — U+05D0
(HEBREW LETTER ALEF) is R, U+0660 (ARABIC-INDIC DIGIT ZERO) is AN, U+0030
(DIGIT ZERO) is EN, as in the Unicode character database. -/
def collabBidi : Collab :=
  { collabC with
      charDirection := fun c =>
        if c = 0x5d0 then .rightToLeft
        else if c = 0x660 then .arabicNumber
        else if c = 0x30 then .europeanNumber
        else .leftToRight }

/-- The info carried by a fastpath outcome. -/
def FastPathRes.getInfo : FastPathRes → IDNAInfo
  | .complete _ info => info
  | .unicodePath _ _ _ info => info

/-- The LDH test of the Punycode-failure scan: ASCII, not a dot, and not
disallowed by `asciiData` — exactly the letters, digits and the hyphen. -/
def isLDH (c : Nat) : Bool := c ≤ 0x7f ∧ c ≠ 0x2e ∧ ¬ asciiData c < 0

/-- The per-unit substitution of the Punycode-failure scan: a dot becomes
`U+FFFD`; disallowed ASCII becomes `U+FFFD` when STD3 rules are on. -/
def punyFailMap (std3 : Bool) (c : Nat) : Nat :=
  if c ≤ 0x7f then
    if c = 0x2e then 0xfffd
    else if asciiData c < 0 ∧ std3 then 0xfffd else c
  else c

/-- The error bits that `process` (and everything it calls) can set: every
bit except `DOMAIN_NAME_TOO_LONG`, which only the `nameToASCII` wrapper
sets. -/
def labelBits : Finset ErrBit :=
  {.emptyLabel, .labelTooLong, .leadingHyphen, .trailingHyphen, .hyphen34,
   .leadingCombiningMark, .disallowed, .punycode, .labelHasDot,
   .invalidAceLabel, .bidi, .contextJ}

/-- One step of info evolution inside `process`: error bits only grow, only
bits from `labelBits` are added, and `hasDevChars` never reverts to false. -/
def InfoStep (a b : IDNAInfo) : Prop :=
  a.errors ⊆ b.errors ∧ b.errors ⊆ a.errors ∪ labelBits ∧
  a.hasDevChars ≤ b.hasDevChars

/-- The destination prefix of length `n` of `s` survives in `t`, and `t` is
still long enough for further in-range edits. -/
def PrefixKept (n : Nat) (s t : Str) : Prop :=
  t.take n = s.take n ∧ n ≤ t.length

theorem infoStep_refl (a : IDNAInfo) : InfoStep a a :=
  ⟨Finset.Subset.refl _, Finset.subset_union_left, le_refl _⟩

theorem infoStep_trans {a b c : IDNAInfo} (h1 : InfoStep a b) (h2 : InfoStep b c) :
    InfoStep a c := by
  refine ⟨h1.1.trans h2.1, ?_, h1.2.2.trans h2.2.2⟩
  intro x hx
  rcases Finset.mem_union.1 (h2.2.1 hx) with hb | hl
  · exact h1.2.1 hb
  · exact Finset.mem_union.2 (Or.inr hl)

theorem infoStep_addErr (a : IDNAInfo) (e : ErrBit) (he : e ∈ labelBits) :
    InfoStep a (a.addErr e) := by
  refine ⟨?_, ?_, le_refl _⟩
  · exact Finset.subset_insert _ _
  · intro x hx
    rcases Finset.mem_insert.1 hx with rfl | hm
    · exact Finset.mem_union.2 (Or.inr he)
    · exact Finset.mem_union.2 (Or.inl hm)

theorem infoStep_setDev (a : IDNAInfo) : InfoStep a a.setDev :=
  ⟨Finset.Subset.refl _, Finset.subset_union_left, by simp [IDNAInfo.setDev]⟩

theorem infoStep_union (a : IDNAInfo) (s : Finset ErrBit) (hs : s ⊆ labelBits) :
    InfoStep a { a with errors := a.errors ∪ s } := by
  refine ⟨Finset.subset_union_left, ?_, le_refl _⟩
  intro x hx
  rcases Finset.mem_union.1 hx with ha | hm
  · exact Finset.mem_union.2 (Or.inl ha)
  · exact Finset.mem_union.2 (Or.inr (hs hm))

theorem infoStep_ite_addErr {a b : IDNAInfo} (c : Prop) [Decidable c] (e : ErrBit)
    (he : e ∈ labelBits) (h : InfoStep a b) :
    InfoStep a (if c then b.addErr e else b) := by
  split
  · exact infoStep_trans h (infoStep_addErr b e he)
  · exact h

theorem punyFailScan_spec (std3 : Bool) (l : Str) :
    (punyFailScan std3 l).1 = l.map (punyFailMap std3) ∧
    (punyFailScan std3 l).2.1 = l.all isLDH ∧
    (punyFailScan std3 l).2.2 ⊆ labelBits := by
  induction l with
  | nil => simp [punyFailScan]
  | cons c rest ih =>
    simp only [punyFailScan, List.map_cons, List.all_cons]
    rcases ih with ⟨ih1, ih2, ih3⟩
    by_cases h7 : c ≤ 0x7f
    · by_cases hdot : c = 0x2e
      · subst hdot
        refine ⟨by simp [punyFailMap, ih1], by simp [isLDH], ?_⟩
        simp only [if_pos (by norm_num : (0x2e : Nat) ≤ 0x7f), if_pos rfl]
        exact Finset.insert_subset_iff.2 ⟨by decide, ih3⟩
      · by_cases hda : asciiData c < 0
        · refine ⟨?_, ?_, ?_⟩
          · simp [h7, hdot, hda, punyFailMap, ih1]
          · simp [h7, hdot, hda, isLDH]
          · simp only [if_pos h7, if_neg hdot, if_pos hda]
            exact ih3
        · refine ⟨?_, ?_, ?_⟩
          · simp [h7, hdot, hda, punyFailMap, ih1]
          · simp [h7, hdot, hda, isLDH, ih2]
          · simp only [if_pos h7, if_neg hdot, if_neg hda]
            exact ih3
    · refine ⟨?_, ?_, ?_⟩
      · simp [h7, punyFailMap, ih1]
      · simp [h7, isLDH]
      · simp only [if_neg h7]
        exact ih3

theorem stepAddErr {a b : IDNAInfo} (e : ErrBit) (he : e ∈ labelBits)
    (h : InfoStep a b) : InfoStep a (b.addErr e) :=
  infoStep_trans h (infoStep_addErr b e he)

theorem stepUnionErrs {a b : IDNAInfo} (s : Finset ErrBit) (hs : s ⊆ labelBits)
    (h : InfoStep a b) : InfoStep a { b with errors := b.errors ∪ s } :=
  infoStep_trans h (infoStep_union b s hs)

theorem stepSetDev {a b : IDNAInfo} (h : InfoStep a b) : InfoStep a b.setDev :=
  infoStep_trans h (infoStep_setDev b)

theorem devScan_infoStep (std3 wp dm : Bool) (ls fuel : Nat) :
    ∀ (idx : Nat) (st : ScanState),
      InfoStep st.info (devScan std3 wp dm ls fuel idx st).info := by
  induction fuel with
  | zero => intro idx st; exact infoStep_refl _
  | succ fuel ih =>
    intro idx st
    simp only [devScan]
    repeat' split
    all_goals
      first
        | exact infoStep_refl _
        | exact ih _ _
        | (refine infoStep_trans ?_ (ih _ _);
           repeat
             first
               | exact infoStep_refl _
               | exact infoStep_setDev _
               | apply stepSetDev
               | apply stepAddErr _ (by decide))

theorem stepScan (std3 wp dm : Bool) (ls fuel idx : Nat) {a : IDNAInfo}
    {st : ScanState} (h : InfoStep a st.info) :
    InfoStep a (devScan std3 wp dm ls fuel idx st).info :=
  infoStep_trans h (devScan_infoStep std3 wp dm ls fuel idx st)

theorem hyphenChecks_infoStep (buf : Str) (ls ll : Nat) (info : IDNAInfo) :
    InfoStep info (hyphenChecks buf ls ll info) := by
  simp only [hyphenChecks]
  repeat' split
  all_goals
    repeat
      first
        | exact infoStep_refl _
        | apply stepAddErr _ (by decide)

theorem stepHyphen {a info : IDNAInfo} (buf : Str) (ls ll : Nat)
    (h : InfoStep a info) : InfoStep a (hyphenChecks buf ls ll info) :=
  infoStep_trans h (hyphenChecks_infoStep buf ls ll info)

theorem markCheck_infoStep (col : Collab) (buf : Str) (ls ll : Nat) (info : IDNAInfo) :
    InfoStep info (markCheck col buf ls ll info).2.2 := by
  simp only [markCheck]
  split
  · exact infoStep_addErr _ _ (by decide)
  · exact infoStep_refl _

theorem stepMark (col : Collab) (buf : Str) (ls ll : Nat) {a info : IDNAInfo}
    (h : InfoStep a info) : InfoStep a (markCheck col buf ls ll info).2.2 :=
  infoStep_trans h (markCheck_infoStep col buf ls ll info)

theorem bidiCtxjChecks_infoStep (col : Collab) (opts : Options) (ored : Nat)
    (lbl : Str) (info : IDNAInfo) :
    InfoStep info (bidiCtxjChecks col opts ored lbl info) := by
  simp only [bidiCtxjChecks]
  repeat' split
  all_goals
    repeat
      first
        | exact infoStep_refl _
        | apply stepAddErr _ (by decide)

theorem stepBidiCtxj (col : Collab) (opts : Options) (ored : Nat) (lbl : Str)
    {a info : IDNAInfo} (h : InfoStep a info) :
    InfoStep a (bidiCtxjChecks col opts ored lbl info) :=
  infoStep_trans h (bidiCtxjChecks_infoStep col opts ored lbl info)

set_option maxHeartbeats 1000000 in
theorem processLabelTail_infoStep (col : Collab) (opts : Options) (ta wp : Bool)
    (dls dll : Nat) (st : LabelSt) :
    InfoStep st.info (processLabelTail col opts ta wp dls dll st).info := by
  simp only [processLabelTail]
  repeat' split
  all_goals
    repeat
      first
        | exact infoStep_refl _
        | apply stepAddErr _ (by decide)
        | apply stepBidiCtxj
        | apply stepScan
        | apply stepMark
        | apply stepHyphen

theorem stepTail (col : Collab) (opts : Options) (ta wp : Bool) (dls dll : Nat)
    {a : IDNAInfo} {st : LabelSt} (h : InfoStep a st.info) :
    InfoStep a (processLabelTail col opts ta wp dls dll st).info :=
  infoStep_trans h (processLabelTail_infoStep col opts ta wp dls dll st)

theorem processLabel_infoStep (col : Collab) (opts : Options) (dest : Str)
    (ls ll : Nat) (ta : Bool) (info : IDNAInfo) :
    InfoStep info (processLabel col opts dest ls ll ta info).info := by
  simp only [processLabel]
  repeat' split
  all_goals
    repeat
      first
        | exact infoStep_refl _
        | apply stepAddErr _ (by decide)
        | apply stepUnionErrs _ ((punyFailScan_spec _ _).2.2)
        | apply stepTail

theorem stepLabel (col : Collab) (opts : Options) (dest : Str) (ls ll : Nat)
    (ta : Bool) {a info : IDNAInfo} (h : InfoStep a info) :
    InfoStep a (processLabel col opts dest ls ll ta info).info :=
  infoStep_trans h (processLabel_infoStep col opts dest ls ll ta info)

theorem labelLoop_infoStep (col : Collab) (opts : Options) (ta : Bool) (fuel : Nat) :
    ∀ (dest : Str) (lsr ll dl : Nat) (info : IDNAInfo),
      InfoStep info (labelLoop col opts ta fuel dest lsr ll dl info).info := by
  induction fuel with
  | zero => intros; exact infoStep_refl _
  | succ fuel ih =>
    intro dest lsr ll dl info
    simp only [labelLoop]
    repeat' split
    all_goals
      first
        | exact infoStep_refl _
        | exact ih _ _ _ _ _
        | exact processLabel_infoStep _ _ _ _ _ _ _
        | exact infoStep_trans (processLabel_infoStep _ _ _ _ _ _ _) (ih _ _ _ _ _)

theorem asciiLoop_infoStep (opts : Options) (src : Str) (il ta : Bool) (fuel : Nat) :
    ∀ (i lsr : Nat) (acc : Str) (info : IDNAInfo) (res : FastPathRes),
      asciiLoop opts src il ta fuel i lsr acc info = res →
      InfoStep info res.getInfo := by
  induction fuel with
  | zero => intro i lsr acc info res h; subst h; exact infoStep_refl _
  | succ fuel ih =>
    intro i lsr acc info res h
    simp only [asciiLoop] at h
    by_cases c1 : i = src.length
    · rw [if_pos c1] at h
      subst h
      exact infoStep_ite_addErr _ _ (by decide) (infoStep_refl _)
    · rw [if_neg c1] at h
      by_cases c2 : 0x7f < u16Get src i
      · rw [if_pos c2] at h
        subst h
        exact infoStep_refl _
      · rw [if_neg c2] at h
        by_cases c3 : asciiData (u16Get src i) > 0
        · rw [if_pos c3] at h
          exact ih _ _ _ _ _ h
        · rw [if_neg c3] at h
          by_cases c4 : asciiData (u16Get src i) < 0 ∧ opts.useSTD3Rules = true
          · rw [if_pos c4] at h
            subst h
            exact infoStep_refl _
          · rw [if_neg c4] at h
            by_cases c5 : u16Get src i = 0x2d
            · rw [if_pos c5] at h
              by_cases c5a : i = lsr + 3 ∧ u16Get src (i - 1) = 0x2d
              · rw [if_pos c5a] at h
                subst h
                exact infoStep_refl _
              · rw [if_neg c5a] at h
                refine infoStep_trans ?_ (ih _ _ _ _ _ h)
                repeat
                  first
                    | exact infoStep_refl _
                    | apply infoStep_ite_addErr _ _ (by decide)
                    | apply stepAddErr _ (by decide)
            · rw [if_neg c5] at h
              by_cases c6 : u16Get src i = 0x2e
              · rw [if_pos c6] at h
                by_cases c6a : il = true
                · rw [if_pos c6a] at h
                  subst h
                  exact infoStep_refl _
                · rw [if_neg c6a] at h
                  refine infoStep_trans ?_ (ih _ _ _ _ _ h)
                  repeat' split
                  all_goals
                    repeat
                      first
                        | exact infoStep_refl _
                        | apply stepAddErr _ (by decide)
              · rw [if_neg c6] at h
                exact ih _ _ _ _ _ h

theorem take_append_left_of_le {α : Type} (l r : List α) (n : Nat) (h : n ≤ l.length) :
    (l ++ r).take n = l.take n := by
  rw [List.take_append_eq_append_take, Nat.sub_eq_zero_of_le h, List.take_zero,
    List.append_nil]

theorem take_replaceSlice (s r : Str) (start len n : Nat) (h1 : n ≤ start)
    (h2 : n ≤ s.length) :
    (replaceSlice s start len r).take n = s.take n := by
  unfold replaceSlice
  have hlen : n ≤ (s.take start).length := by
    simp only [List.length_take]
    omega
  rw [show s.take start ++ r ++ s.drop (start + len) =
        s.take start ++ (r ++ s.drop (start + len)) from List.append_assoc _ _ _,
    take_append_left_of_le _ _ _ hlen, List.take_take, Nat.min_eq_left h1]

theorem take_set_of_le (c : Nat) :
    ∀ (s : Str) (i n : Nat), n ≤ i → (s.set i c).take n = s.take n
  | [], _, _, _ => by simp
  | a :: s, i, 0, _ => by simp
  | a :: s, 0, n + 1, h => absurd h (Nat.not_succ_le_zero n)
  | a :: s, i + 1, n + 1, h => by
    simp only [List.set, List.take]
    rw [take_set_of_le c s i n (Nat.le_of_succ_le_succ h)]

theorem prefixKept_refl {n : Nat} {s : Str} (h : n ≤ s.length) : PrefixKept n s s :=
  ⟨rfl, h⟩

theorem prefixKept_replaceSlice {n start : Nat} {s t : Str} (len : Nat) (r : Str)
    (h1 : n ≤ start) (h : PrefixKept n s t) :
    PrefixKept n s (replaceSlice t start len r) := by
  refine ⟨(take_replaceSlice t r start len n h1 h.2).trans h.1, ?_⟩
  unfold replaceSlice
  simp only [List.length_append, List.length_take]
  have := h.2
  omega

theorem prefixKept_set {n i : Nat} {s t : Str} (c : Nat) (h1 : n ≤ i)
    (h : PrefixKept n s t) : PrefixKept n s (t.set i c) := by
  refine ⟨(take_set_of_le c t i n h1).trans h.1, ?_⟩
  rw [List.length_set]
  exact h.2

theorem insertAt_eq_replaceSlice (s : Str) (i c : Nat) :
    insertAt s i c = replaceSlice s i 0 [c] := by
  unfold insertAt replaceSlice
  rw [Nat.add_zero]

theorem prefixKept_insertAt {n i : Nat} {s t : Str} (c : Nat) (h1 : n ≤ i)
    (h : PrefixKept n s t) : PrefixKept n s (insertAt t i c) := by
  rw [insertAt_eq_replaceSlice]
  exact prefixKept_replaceSlice 0 [c] h1 h

theorem removeAt_eq_replaceSlice (s : Str) (i : Nat) :
    removeAt s i = replaceSlice s i 1 [] := by
  unfold removeAt replaceSlice
  rw [List.append_nil]

theorem prefixKept_removeAt {n i : Nat} {s t : Str} (h1 : n ≤ i)
    (h : PrefixKept n s t) : PrefixKept n s (removeAt t i) := by
  rw [removeAt_eq_replaceSlice]
  exact prefixKept_replaceSlice 1 [] h1 h

theorem devScan_frame (std3 wp dm : Bool) (ls fuel : Nat) :
    ∀ (idx : Nat) (st : ScanState) (s : Str), ls ≤ idx → PrefixKept ls s st.buf →
      PrefixKept ls s (devScan std3 wp dm ls fuel idx st).buf := by
  induction fuel with
  | zero => intro _ st s _ h; exact h
  | succ fuel ih =>
    intro idx st s h1 h
    simp only [devScan]
    repeat' split
    all_goals
      first
        | exact h
        | exact ih _ _ _ (by omega) h
        | exact ih _ _ _ (by omega) (prefixKept_set _ (by omega) h)
        | exact ih _ _ _ (by omega)
            (prefixKept_insertAt _ (by omega) (prefixKept_set _ (by omega) h))
        | exact ih _ _ _ (by omega) (prefixKept_removeAt (by omega) h)

theorem markCheck_frame (col : Collab) (buf : Str) (ls ll : Nat) (info : IDNAInfo)
    (h : ls ≤ buf.length) : PrefixKept ls buf (markCheck col buf ls ll info).1 := by
  simp only [markCheck]
  split
  · exact prefixKept_replaceSlice _ _ (le_refl ls) (prefixKept_refl h)
  · exact prefixKept_refl h

set_option maxHeartbeats 2000000 in
theorem processLabelTail_frame (col : Collab) (opts : Options) (ta wp : Bool)
    (dls dll : Nat) (st : LabelSt)
    (hls : dls ≤ st.dest.length)
    (hbuf : st.lsIsDest = true → st.buf = st.dest ∧ st.labelStart = dls) :
    (processLabelTail col opts ta wp dls dll st).dest.take dls = st.dest.take dls := by
  obtain ⟨d, b, lid, lsr0, ll0, info0⟩ := st
  simp only at hls
  cases lid with
  | false =>
    simp only [processLabelTail, replaceLabel]
    repeat' split
    all_goals
      first
        | rfl
        | exact absurd ‹false = true› (by decide)
        | exact take_replaceSlice _ _ _ _ _ (le_refl _) hls
  | true =>
    obtain ⟨hb, hlsr⟩ := hbuf rfl
    simp only at hb hlsr
    subst hb
    subst hlsr
    simp only [processLabelTail, replaceLabel]
    have hscan : ∀ (inf : IDNAInfo) (dm : Bool),
        PrefixKept lsr0 b
          (devScan opts.useSTD3Rules wp dm lsr0
            (markCheck col b lsr0 ll0 inf).2.1 lsr0
            ⟨(markCheck col b lsr0 ll0 inf).1, (markCheck col b lsr0 ll0 inf).2.1, 0,
              (markCheck col b lsr0 ll0 inf).2.2, false⟩).buf :=
      fun inf dm =>
        devScan_frame opts.useSTD3Rules wp dm lsr0 _ _ _ _ (le_refl lsr0)
          (markCheck_frame col b lsr0 ll0 inf hls)
    repeat' split
    all_goals
      first
        | rfl
        | exact absurd ‹false = true› (by decide)
        | exact absurd rfl ‹¬true = true›
        | exact (hscan _ _).1
        | exact (take_replaceSlice _ _ _ _ _ (le_refl _) (hscan _ _).2).trans (hscan _ _).1
        | exact take_replaceSlice _ _ _ _ _ (le_refl _) hls

/-- C10: `processLabel(dest, labelStart, labelLength, ...)` never touches the
code units of `dest` before `labelStart`: every in-place edit, the appended
`U+FFFD` of a failed Punycode decode, and the final `replaceLabel` operate at
or after `labelStart`, so the prefix holding the earlier labels is returned
unchanged. -/
theorem C10_processLabel_frame (col : Collab) (opts : Options) (dest : Str)
    (labelStart labelLength : Nat) (toASCII : Bool) (info : IDNAInfo)
    (h : labelStart + labelLength ≤ dest.length) :
    (processLabel col opts dest labelStart labelLength toASCII info).dest.take labelStart =
      dest.take labelStart := by
  have hls : labelStart ≤ dest.length := by omega
  simp only [processLabel]
  repeat' split
  all_goals
    first
      | (rw [insertAt_eq_replaceSlice]
         exact take_replaceSlice _ _ _ _ _ (by omega) hls)
      | exact take_replaceSlice _ _ _ _ _ (by omega) hls
      | exact processLabelTail_frame col opts _ _ _ _ _ hls (fun _ => ⟨rfl, rfl⟩)
      | exact processLabelTail_frame col opts _ _ _ _ _ hls
          (fun hfalse => absurd hfalse Bool.false_ne_true)

/-- C10 witness: a concrete call leaving the prefix before the label intact. -/
theorem C10_processLabel_frame_witness :
    1 + 1 ≤ ([0x61, 0x62] : Str).length ∧
    (processLabel collabC Options.none [0x61, 0x62] 1 1 true IDNAInfo.reset).dest.take 1 =
      ([0x61, 0x62] : Str).take 1 :=
  ⟨by decide,
    C10_processLabel_frame collabC Options.none [0x61, 0x62] 1 1 true IDNAInfo.reset
      (by decide)⟩

theorem processUnicode_infoStep (col : Collab) (opts : Options) (src : Str)
    (lsr ms : Nat) (il ta : Bool) (dest : Str) (info : IDNAInfo) :
    InfoStep info (processUnicode col opts src lsr ms il ta dest info).info := by
  simp only [processUnicode]
  repeat' split
  all_goals
    first
      | exact processLabel_infoStep _ _ _ _ _ _ _
      | exact labelLoop_infoStep _ _ _ _ _ _ _ _ _

theorem process_infoStep (col : Collab) (opts : Options) (src : Str) (il ta : Bool) :
    InfoStep IDNAInfo.reset (process col opts src il ta).info := by
  simp only [process]
  split
  · exact infoStep_addErr _ _ (by decide)
  · rcases hA : asciiLoop opts src il ta (src.length + 1) 0 0 [] IDNAInfo.reset with
      ⟨d, i⟩ | ⟨lsr, ms, d, i⟩
    · exact asciiLoop_infoStep opts src il ta (src.length + 1) 0 0 [] IDNAInfo.reset _ hA
    · exact infoStep_trans
        (asciiLoop_infoStep opts src il ta (src.length + 1) 0 0 [] IDNAInfo.reset _ hA)
        (processUnicode_infoStep _ _ _ _ _ _ _ _ _)

theorem finishToASCII_info (p : ProcResult) (info : IDNAInfo) :
    (finishToASCII p info).info = info := by
  simp only [finishToASCII]
  split <;> rfl

theorem finishToASCII_bogus (p : ProcResult) (info : IDNAInfo)
    (h : info.errors ≠ ∅) : (finishToASCII p info).result = bogusResult := by
  simp only [finishToASCII, IDNAInfo.hasErrors]
  rw [if_pos (by simpa using h)]

theorem finishToASCII_ok (p : ProcResult) (info : IDNAInfo)
    (h : info.errors = ∅) : (finishToASCII p info).result = ⟨p.dest, false⟩ := by
  simp only [finishToASCII, IDNAInfo.hasErrors]
  rw [if_neg (by simp [h])]

theorem dntl_notin_process (col : Collab) (opts : Options) (src : Str) (il ta : Bool) :
    ErrBit.domainNameTooLong ∉ (process col opts src il ta).info.errors := by
  intro hmem
  have h := (process_infoStep col opts src il ta).2.1 hmem
  rcases Finset.mem_union.1 h with h0 | hl
  · simp [IDNAInfo.reset] at h0
  · exact absurd hl (by decide)

theorem nameToASCII_info_eq (col : Collab) (opts : Options) (src : Str) :
    (nameToASCII col opts src).info =
      if 254 ≤ (process col opts src false true).dest.length ∧
         (254 < (process col opts src false true).dest.length ∨
          u16Get (process col opts src false true).dest 253 ≠ 0x2e)
      then (process col opts src false true).info.addErr .domainNameTooLong
      else (process col opts src false true).info := by
  simp only [nameToASCII, finishToASCII_info]

/-- C4: in `nameToASCII` the `DOMAIN_NAME_TOO_LONG` error bit is set if and
only if the processed result (the destination produced by `process`, before
any `setToBogus`) has length at least 254 code units and either exceeds 254
or its code unit at index 253 is not U+002E; `process` itself never sets
that bit. -/
theorem C4_domainNameTooLong_iff (col : Collab) (opts : Options) (src : Str) :
    ErrBit.domainNameTooLong ∈ (nameToASCII col opts src).info.errors ↔
      (254 ≤ (process col opts src false true).dest.length ∧
       (254 < (process col opts src false true).dest.length ∨
        u16Get (process col opts src false true).dest 253 ≠ 0x2e)) := by
  rw [nameToASCII_info_eq]
  split
  case isTrue hc => simp [IDNAInfo.addErr, hc]
  case isFalse hc =>
    simp only [hc, iff_false]
    exact dntl_notin_process col opts src false true

/-- C9: within `process` the info evolves monotonically after the reset:
`processLabel`, `processUnicode` and the ASCII fastpath loop only OR error
bits into `info.errors` (never clearing any) and only raise `hasDevChars`
from `false` to `true`, never back. -/
theorem C9_info_monotone (col : Collab) (opts : Options) (dest : Str)
    (ls ll : Nat) (ta il : Bool) (src : Str) (lsr ms : Nat) (info : IDNAInfo)
    (fuel i labelStart : Nat) (acc : Str) :
    (info.errors ⊆ (processLabel col opts dest ls ll ta info).info.errors ∧
     info.hasDevChars ≤ (processLabel col opts dest ls ll ta info).info.hasDevChars) ∧
    (info.errors ⊆ (processUnicode col opts src lsr ms il ta dest info).info.errors ∧
     info.hasDevChars ≤
       (processUnicode col opts src lsr ms il ta dest info).info.hasDevChars) ∧
    (info.errors ⊆ (asciiLoop opts src il ta fuel i labelStart acc info).getInfo.errors ∧
     info.hasDevChars ≤
       (asciiLoop opts src il ta fuel i labelStart acc info).getInfo.hasDevChars) :=
  ⟨⟨(processLabel_infoStep col opts dest ls ll ta info).1,
    (processLabel_infoStep col opts dest ls ll ta info).2.2⟩,
   ⟨(processUnicode_infoStep col opts src lsr ms il ta dest info).1,
    (processUnicode_infoStep col opts src lsr ms il ta dest info).2.2⟩,
   ⟨(asciiLoop_infoStep opts src il ta fuel i labelStart acc info _ rfl).1,
    (asciiLoop_infoStep opts src il ta fuel i labelStart acc info _ rfl).2.2⟩⟩

/-- C5: for the `toASCII` entry points, when the call completes without a
fatal status error the destination is marked bogus exactly when some error
bit is set; with no error bit the destination is not bogus and holds the
processed result. -/
theorem C5_toASCII_bogus_iff_errors (col : Collab) (opts : Options) (src : Str)
    (hn : (nameToASCII col opts src).fatal = false)
    (hl : (labelToASCII col opts src).fatal = false) :
    ((nameToASCII col opts src).info.errors ≠ ∅ →
       (nameToASCII col opts src).result = bogusResult) ∧
    ((nameToASCII col opts src).info.errors = ∅ →
       (nameToASCII col opts src).result.bogus = false ∧
       (nameToASCII col opts src).result.value = (process col opts src false true).dest) ∧
    ((labelToASCII col opts src).info.errors ≠ ∅ →
       (labelToASCII col opts src).result = bogusResult) ∧
    ((labelToASCII col opts src).info.errors = ∅ →
       (labelToASCII col opts src).result.bogus = false ∧
       (labelToASCII col opts src).result.value = (process col opts src true true).dest) := by
  refine ⟨fun hne => ?_, fun he => ?_, fun hne => ?_, fun he => ?_⟩
  · rw [nameToASCII_info_eq] at hne
    simp only [nameToASCII]
    exact finishToASCII_bogus _ _ hne
  · rw [nameToASCII_info_eq] at he
    simp only [nameToASCII]
    rw [finishToASCII_ok _ _ he]
    exact ⟨rfl, rfl⟩
  · simp only [labelToASCII, finishToASCII_info] at hne
    simp only [labelToASCII]
    exact finishToASCII_bogus _ _ hne
  · simp only [labelToASCII, finishToASCII_info] at he
    simp only [labelToASCII]
    rw [finishToASCII_ok _ _ he]
    exact ⟨rfl, rfl⟩

/-- C5 witness: "a" maps to "a" with no errors and a non-bogus destination
through both entry points. -/
theorem C5_toASCII_bogus_iff_errors_witness :
    ((nameToASCII collabC Options.none [0x61]).fatal = false ∧
     (labelToASCII collabC Options.none [0x61]).fatal = false) ∧
    ((nameToASCII collabC Options.none [0x61]).info.errors = ∅ →
       (nameToASCII collabC Options.none [0x61]).result.bogus = false ∧
       (nameToASCII collabC Options.none [0x61]).result.value =
         (process collabC Options.none [0x61] false true).dest) :=
  ⟨⟨by decide, by decide⟩,
    (C5_toASCII_bogus_iff_errors collabC Options.none [0x61] (by decide) (by decide)).2.1⟩

/-- C6: when a label starting with "xn--" fails Punycode decoding,
`processLabel` sets the `PUNYCODE` error; if every code unit after "xn--" is
LDH one `U+FFFD` is appended right after the label and the label grows by
one unit (delta `+1`); otherwise the length is unchanged (delta `0`) and the
remainder is rewritten in place by `punyFailMap` (dots always to `U+FFFD`,
disallowed ASCII to `U+FFFD` under STD3 rules). -/
theorem C6_punycode_failure_branch (col : Collab) (opts : Options) (dest : Str)
    (ls ll : Nat) (ta : Bool) (info : IDNAInfo)
    (hxn : u16Get dest ls = 0x78 ∧ u16Get dest (ls + 1) = 0x6e ∧
           u16Get dest (ls + 2) = 0x2d ∧ u16Get dest (ls + 3) = 0x2d)
    (hlen : 4 < ll)
    (hfail : col.punyDecode (slice dest (ls + 4) (ll - 4)) = Option.none) :
    ErrBit.punycode ∈ (processLabel col opts dest ls ll ta info).info.errors ∧
    ((slice dest (ls + 4) (ll - 4)).all isLDH = true →
      (processLabel col opts dest ls ll ta info).dest = insertAt dest (ls + ll) 0xfffd ∧
      (processLabel col opts dest ls ll ta info).newLabelLength = ll + 1) ∧
    ((slice dest (ls + 4) (ll - 4)).all isLDH = false →
      (processLabel col opts dest ls ll ta info).newLabelLength = ll ∧
      (processLabel col opts dest ls ll ta info).dest =
        replaceSlice dest (ls + 4) (ll - 4)
          ((slice dest (ls + 4) (ll - 4)).map (punyFailMap opts.useSTD3Rules))) := by
  obtain ⟨h1, h2, h3, h4⟩ := hxn
  obtain ⟨hmap, hldh, _⟩ := punyFailScan_spec opts.useSTD3Rules (slice dest (ls + 4) (ll - 4))
  simp only [processLabel, if_pos (⟨by omega, h1, h2, h3, h4⟩ :
    4 ≤ ll ∧ u16Get dest ls = 0x78 ∧ u16Get dest (ls + 1) = 0x6e ∧
    u16Get dest (ls + 2) = 0x2d ∧ u16Get dest (ls + 3) = 0x2d), hfail]
  rw [hldh, hmap]
  refine ⟨?_, fun hall => ?_, fun hall => ?_⟩
  · split
    all_goals
      exact Finset.mem_union.2 (Or.inl (Finset.mem_insert_self _ _))
  · rw [if_pos hall]
    exact ⟨rfl, rfl⟩
  · rw [if_neg (by simp [hall])]
    exact ⟨rfl, rfl⟩

/-- C6 witness: the label "xn--a" with a decoder that rejects "a": the
remainder is all-LDH, one `U+FFFD` is appended and the delta is `+1`. -/
theorem C6_punycode_failure_branch_witness :
    (u16Get [0x78, 0x6e, 0x2d, 0x2d, 0x61] 0 = 0x78 ∧
     u16Get [0x78, 0x6e, 0x2d, 0x2d, 0x61] 1 = 0x6e ∧
     u16Get [0x78, 0x6e, 0x2d, 0x2d, 0x61] 2 = 0x2d ∧
     u16Get [0x78, 0x6e, 0x2d, 0x2d, 0x61] 3 = 0x2d) ∧
    4 < 5 ∧
    collabC.punyDecode (slice [0x78, 0x6e, 0x2d, 0x2d, 0x61] 4 1) = Option.none ∧
    (ErrBit.punycode ∈
      (processLabel collabC Options.none [0x78, 0x6e, 0x2d, 0x2d, 0x61] 0 5 true
        IDNAInfo.reset).info.errors ∧
     (processLabel collabC Options.none [0x78, 0x6e, 0x2d, 0x2d, 0x61] 0 5 true
        IDNAInfo.reset).dest = insertAt [0x78, 0x6e, 0x2d, 0x2d, 0x61] 5 0xfffd ∧
     (processLabel collabC Options.none [0x78, 0x6e, 0x2d, 0x2d, 0x61] 0 5 true
        IDNAInfo.reset).newLabelLength = 6) := by
  have h := C6_punycode_failure_branch collabC Options.none [0x78, 0x6e, 0x2d, 0x2d, 0x61]
    0 5 true IDNAInfo.reset (by decide) (by decide) (by decide)
  exact ⟨by decide, by decide, by decide, h.1, (h.2.1 (by decide)).1, (h.2.1 (by decide)).2⟩

/-- C1: as written, `ContractionsAndExpansions::addStrings` always adds the
built strings via `expansions->add(s)` even though its `set` argument was
the contractions set: evaluated at a call with both sets present and
`set = contractions`, the string "a" lands in `expansions` while the
passed `contractions` set is unchanged, contradicting the claim that the
strings are appended to the set passed as the argument. -/
theorem C1_addStrings_adds_to_expansions :
    addStrings ⟨Option.none, Option.none, some [], some []⟩ 0x61 0x61 WhichSet.con =
      some ⟨Option.none, Option.none, some [], some [[0x61]]⟩ := by decide

/-- C2: the CONTEXTJ postcontext walk examines the U+200C itself (the
source advances `i`, not the loop index `j`), so the label LAM ZWNJ LAM —
whose precontext is Dual-Joining and whose first code point after the ZWNJ
is Dual-Joining, hence acceptable per the claimed walk — is rejected: the
function returns false. -/
theorem C2_contextJ_postcontext_reads_zwnj :
    isLabelOkContextJ collabCtxj [0x644, 0x200c, 0x644] = some false ∧
    collabCtxj.joiningType 0x644 = JoiningType.dualJoining ∧
    collabCtxj.joiningType 0x200c = JoiningType.nonJoining ∧
    collabCtxj.combiningClass 0x644 ≠ 9 := by decide

/-- C3: `nameToASCII` is not idempotent: "ä" (U+00E4) maps to "xn--4ca"
with no errors, but `nameToASCII("xn--4ca")` replaces the unmodified ACE
label with its decoded Unicode form "ä", so applying `nameToASCII` twice
differs from applying it once. -/
theorem C3_nameToASCII_not_idempotent :
    (nameToASCII collabC Options.none [0xe4]).info.errors = ∅ ∧
    (nameToASCII collabC Options.none [0xe4]).result.value =
      [0x78, 0x6e, 0x2d, 0x2d, 0x34, 0x63, 0x61] ∧
    (nameToASCII collabC Options.none
        ((nameToASCII collabC Options.none [0xe4]).result.value)).result.value = [0xe4] ∧
    (nameToASCII collabC Options.none
        ((nameToASCII collabC Options.none [0xe4]).result.value)).result.value ≠
      (nameToASCII collabC Options.none [0xe4]).result.value := by decide

/-- C7: `isLabelOkBiDi` accumulates the EN/AN-exclusivity mask only over the
code points strictly between the first one and the last non-NSM one, so the
RTL label ALEF, ARABIC-INDIC-ZERO, DIGIT-ZERO — in which both an AN and an
EN bidi class appear — is accepted, contradicting the claim (and rule 4
quoted in the source's own comment). -/
theorem C7_bidi_en_an_both_accepted :
    isLabelOkBiDi collabBidi [0x5d0, 0x660, 0x30] = true ∧
    collabBidi.charDirection 0x5d0 = UCharDirection.rightToLeft ∧
    collabBidi.charDirection 0x660 = UCharDirection.arabicNumber ∧
    collabBidi.charDirection 0x30 = UCharDirection.europeanNumber := by decide

/-- C8: a trie range whose CE32 is the `MIN_SPECIAL_CE32` sentinel, or whose
special CE32 resolves to the sentinel after one `getIndirectCE32` chase,
contributes nothing to the tailored set, for every behavior of the
abstracted collaborators and of the `compare` recursion. -/
theorem C8_fallback_ranges_add_nothing (getIndirect getFinalBase : Nat → Nat)
    (compareF : TSState → Nat → Nat → Nat → TSState) (s : TSState)
    (start e ce32 : Nat)
    (h : ce32 = MIN_SPECIAL_CE32 ∨
         (isSpecialCE32 ce32 = true ∧ getIndirect ce32 = MIN_SPECIAL_CE32)) :
    (enumTailoredRange getIndirect getFinalBase compareF start e ce32 s).tailored =
      s.tailored := by
  rcases h with h | ⟨hs, hi⟩
  · simp [enumTailoredRange, h]
  · by_cases he : ce32 = MIN_SPECIAL_CE32
    · simp [enumTailoredRange, he]
    · simp [enumTailoredRange, he, tsHandleCE32, hs, hi]

/-- C8 witness: a concrete sentinel-resolving range adds nothing. -/
theorem C8_fallback_ranges_add_nothing_witness :
    ((0x90000000 : Nat) = MIN_SPECIAL_CE32 ∨
      (isSpecialCE32 0x90000000 = true ∧
       (fun _ => MIN_SPECIAL_CE32) (0x90000000 : Nat) = MIN_SPECIAL_CE32)) ∧
    (enumTailoredRange (fun _ => MIN_SPECIAL_CE32) (fun _ => 0) (fun s _ _ _ => s)
        0 10 0x90000000 ⟨[]⟩).tailored = ([] : List (Nat ⊕ Str)) :=
  ⟨Or.inr ⟨by decide, rfl⟩,
    C8_fallback_ranges_add_nothing (fun _ => MIN_SPECIAL_CE32) (fun _ => 0)
      (fun s _ _ _ => s) ⟨[]⟩ 0 10 0x90000000 (Or.inr ⟨by decide, rfl⟩)⟩

end ICU
